import Mathlib

/-!
Shallow embedding of the Employee Payroll System core
(`modules/fileHandler.js` and the business-logic functions of `server.js`).

JavaScript numbers are modelled by exact rationals (the claims under test
concern values and tolerances that exact arithmetic settles); `parseFloat`
results carry an explicit numerator/denominator pair so that concrete
evaluations reduce.  `JSON.parse` and `JSON.stringify` are platform
functions, modelled by the guarantee that stringify always produces text
that parse maps back to an equal document.
-/

/-- A JSON document, used for the backing store content and for the opaque
pass-through fields attached to employee objects. -/
inductive Json where
  | null : Json
  | bool (b : Bool) : Json
  | num (q : ℚ) : Json
  | str (s : String) : Json
  | arr (elems : List Json) : Json
  | obj (fields : List (String × Json)) : Json
deriving Repr

/-- JavaScript property lookup on an object, as an association-list find. -/
def jsGet (fields : List (String × Json)) (k : String) : Option Json :=
  (fields.find? (fun p => p.1 == k)).map Prod.snd

/-- JavaScript truthiness of a value (`null`, `false`, `0`, `""` are falsy;
arrays and objects are always truthy). -/
def jsTruthy : Json → Bool
  | Json.null => false
  | Json.bool b => b
  | Json.num q => decide (q ≠ 0)
  | Json.str s => decide (s ≠ "")
  | Json.arr _ => true
  | Json.obj _ => true

/-- JavaScript `x || d` applied to a possibly-absent property `x`:
the property itself when present and truthy, otherwise the default. -/
def jsOrDefault (v : Option Json) (d : Json) : Json :=
  match v with
  | some x => if jsTruthy x then x else d
  | none => d

/-- JavaScript `String.prototype.trim`: surrounding whitespace removed. -/
def jsTrim (s : String) : String :=
  String.mk (((s.data.dropWhile Char.isWhitespace).reverse.dropWhile Char.isWhitespace).reverse)

/-- Result of JavaScript `parseFloat`: NaN, a signed infinity, or a finite
value `n / d` kept as an exact numerator/denominator pair (`d` is a
positive power of ten by construction). -/
inductive JsNum where
  | nan : JsNum
  | inf (neg : Bool) : JsNum
  | fin (n : ℤ) (d : ℕ) : JsNum
deriving DecidableEq, Repr

/-- The rational value of a finite `parseFloat` result. -/
def JsNum.toRat : JsNum → Option ℚ
  | JsNum.fin n d => some ((n : ℚ) / (d : ℚ))
  | _ => none

/-- The `basicSalary` argument as callers pass it: a number (tests) or the
raw form string (route handlers). -/
inductive SalaryInput where
  | num (q : ℚ) : SalaryInput
  | str (s : String) : SalaryInput

/-- Longest leading run of decimal digits, with the remaining characters. -/
def takeDigits : List Char → List Char × List Char
  | [] => ([], [])
  | c :: cs =>
    if c.isDigit then
      let p := takeDigits cs
      (c :: p.1, p.2)
    else ([], c :: cs)

/-- Value of a digit string read most-significant first. -/
def digitsToNat (ds : List Char) : ℕ :=
  ds.foldl (fun acc c => 10 * acc + (c.toNat - 48)) 0

/-- Longest leading significand `Digits [. Digits]` or `. Digits`
(JavaScript decimal literal without exponent or Infinity), as a
numerator/denominator pair; `none` when no digit is found. -/
def parseSignificand (cs : List Char) : Option (ℤ × ℕ × List Char) :=
  let ip := takeDigits cs
  match ip.2 with
  | '.' :: rest2 =>
    let fp := takeDigits rest2
    if ip.1.isEmpty && fp.1.isEmpty then none
    else some (((digitsToNat ip.1 * 10 ^ fp.1.length + digitsToNat fp.1 : ℕ) : ℤ),
               10 ^ fp.1.length, fp.2)
  | _ => if ip.1.isEmpty then none else some (((digitsToNat ip.1 : ℕ) : ℤ), 1, ip.2)

/-- Optional exponent part `e`/`E` `[+-] Digits`; consumed only when at
least one exponent digit follows, as in JavaScript. -/
def parseExponent (cs : List Char) : ℤ × List Char :=
  match cs with
  | c :: rest =>
    if c = 'e' ∨ c = 'E' then
      match rest with
      | s :: rest2 =>
        if s = '+' ∨ s = '-' then
          let dp := takeDigits rest2
          if dp.1.isEmpty then (0, cs)
          else ((if s = '-' then -((digitsToNat dp.1 : ℕ) : ℤ) else ((digitsToNat dp.1 : ℕ) : ℤ)), dp.2)
        else
          let dp := takeDigits rest
          if dp.1.isEmpty then (0, cs) else (((digitsToNat dp.1 : ℕ) : ℤ), dp.2)
      | [] => (0, cs)
    else (0, cs)
  | [] => (0, cs)

/-- Scale a numerator/denominator pair by a power of ten. -/
def applyExponent (n : ℤ) (d : ℕ) (e : ℤ) : ℤ × ℕ :=
  if 0 ≤ e then (n * ((10 ^ e.toNat : ℕ) : ℤ), d) else (n, d * 10 ^ (-e).toNat)

/-- Unsigned decimal literal with optional exponent, longest-prefix. -/
def parseUnsigned (cs : List Char) : Option (ℤ × ℕ) :=
  (parseSignificand cs).map (fun p => applyExponent p.1 p.2.1 (parseExponent p.2.2).1)

/-- Optional leading sign: negativity flag and remaining characters. -/
def parseSign : List Char → Bool × List Char
  | '+' :: r => (false, r)
  | '-' :: r => (true, r)
  | cs => (false, cs)

/-- JavaScript `parseFloat` on a string: skip leading whitespace, optional
sign, then the longest prefix that is `Infinity` or a decimal literal;
NaN when no such prefix exists.  Trailing characters are ignored. -/
def jsParseFloatString (s : String) : JsNum :=
  let sp := parseSign (s.data.dropWhile Char.isWhitespace)
  if sp.2.take 8 = "Infinity".data then JsNum.inf sp.1
  else
    match parseUnsigned sp.2 with
    | some p => JsNum.fin (if sp.1 then -p.1 else p.1) p.2
    | none => JsNum.nan

/-- `parseFloat(basicSalary)`: a finite number input converts to its decimal
string and parses back to itself; a string input is parsed. -/
def jsParseFloat : SalaryInput → JsNum
  | SalaryInput.num q => JsNum.fin q.num q.den
  | SalaryInput.str s => jsParseFloatString s

/-- `isNaN(x)` on a `parseFloat` result. -/
def jsIsNaN : JsNum → Bool
  | JsNum.nan => true
  | _ => false

/-- `x <= 0` on a `parseFloat` result (`false` for NaN; for a finite pair
the denominator is positive, so the sign is the numerator's). -/
def jsLeZero : JsNum → Bool
  | JsNum.nan => false
  | JsNum.inf neg => neg
  | JsNum.fin n _ => decide (n ≤ 0)

/-- `calculateTax` from `server.js`: 12% of the basic salary. -/
def calculateTax (basicSalary : ℚ) : ℚ :=
  basicSalary * (12 / 100)

/-- `calculateNetSalary` from `server.js`: basic salary minus tax. -/
def calculateNetSalary (basicSalary tax : ℚ) : ℚ :=
  basicSalary - tax

/-- Result of `validateEmployeeInput`. -/
structure ValidationResult where
  valid : Bool
  errors : List String
deriving DecidableEq, Repr

/-- JavaScript `!x || x.trim() === ''` on a possibly-absent string field. -/
def isBlankField : Option String → Bool
  | none => true
  | some s => decide (jsTrim s = "")

/-- `validateEmployeeInput` from `server.js`: collects an error per failing
field (name blank, department blank, salary not parsing to a positive
number); `valid` is `errors.length === 0`. -/
def validateEmployeeInput (name department : Option String)
    (basicSalary : SalaryInput) : ValidationResult :=
  let errors : List String :=
    (if isBlankField name then ["Name is required and cannot be empty"] else [])
      ++ (if isBlankField department then ["Department is required and cannot be empty"] else [])
      ++ (let salary := jsParseFloat basicSalary
          if jsIsNaN salary || jsLeZero salary then ["Basic Salary must be a positive number"] else [])
  { valid := errors.length == 0, errors := errors }

/-- An employee object as the route handlers build and persist it: the four
governed fields plus opaque pass-through properties in insertion order.
It denotes a JavaScript object faithfully when the pass-through keys avoid
the governed and derived field names (`EmployeeRecord.wfKeys`). -/
structure EmployeeRecord where
  id : ℚ
  name : String
  department : String
  basicSalary : ℚ
  extra : List (String × Json)
deriving Repr

/-- Field names owned by the data model or by the payroll derivation. -/
def recordReservedKeys : List String :=
  ["id", "name", "department", "basicSalary", "tax", "netSalary"]

/-- Pass-through keys are distinct and avoid the reserved field names. -/
def EmployeeRecord.wfKeys (e : EmployeeRecord) : Prop :=
  (∀ p ∈ e.extra, p.1 ∉ recordReservedKeys) ∧ (e.extra.map Prod.fst).Nodup

instance (e : EmployeeRecord) : Decidable e.wfKeys :=
  decidable_of_iff ((∀ p ∈ e.extra, p.1 ∉ recordReservedKeys) ∧ (e.extra.map Prod.fst).Nodup)
    Iff.rfl

/-- A well-formed stored record per the data-model invariants: non-blank
name and department, positive salary, well-formed pass-through keys. -/
def EmployeeRecord.WellFormed (e : EmployeeRecord) : Prop :=
  jsTrim e.name ≠ "" ∧ jsTrim e.department ≠ "" ∧ 0 < e.basicSalary ∧ e.wfKeys

instance (e : EmployeeRecord) : Decidable e.WellFormed :=
  decidable_of_iff (jsTrim e.name ≠ "" ∧ jsTrim e.department ≠ "" ∧ 0 < e.basicSalary ∧ e.wfKeys)
    Iff.rfl

/-- The derived value `enrichEmployeeWithPayroll` returns; never persisted. -/
structure EmployeeWithPayroll where
  id : ℚ
  name : String
  department : String
  basicSalary : ℚ
  extra : List (String × Json)
  tax : ℚ
  netSalary : ℚ
deriving Repr

/-- `enrichEmployeeWithPayroll` from `server.js`: spreads the employee into
a fresh object and adds the two derived fields; the input is not changed. -/
def enrichEmployeeWithPayroll (employee : EmployeeRecord) : EmployeeWithPayroll :=
  let tax := calculateTax employee.basicSalary
  let netSalary := calculateNetSalary employee.basicSalary tax
  { id := employee.id, name := employee.name, department := employee.department,
    basicSalary := employee.basicSalary, extra := employee.extra,
    tax := tax, netSalary := netSalary }

/-- The JSON object a record denotes in the backing document. -/
def EmployeeRecord.toJson (e : EmployeeRecord) : Json :=
  Json.obj (("id", Json.num e.id) :: ("name", Json.str e.name)
    :: ("department", Json.str e.department)
    :: ("basicSalary", Json.num e.basicSalary) :: e.extra)

/-- Decoder for objects of the shape `EmployeeRecord.toJson` produces. -/
def employeeOfJson : Json → Option EmployeeRecord
  | Json.obj (("id", Json.num i) :: ("name", Json.str n)
      :: ("department", Json.str d) :: ("basicSalary", Json.num b) :: rest) =>
    some ⟨i, n, d, b, rest⟩
  | _ => none

/-- Contents of `employees.json` when the file exists: either text that
`JSON.parse` rejects, or text parsing to some JSON document. -/
inductive FileData where
  | malformed : FileData
  | wellFormed (doc : Json) : FileData

/-- The backing file; `none` models a missing `employees.json` (ENOENT). -/
structure FsState where
  file : Option FileData

/-- `readEmployees` from `modules/fileHandler.js`: returns the parsed file
content; an absent file (ENOENT, first run) and unparseable content both
yield `[]`, and no failure escapes to the caller.  Content that parses is
returned verbatim, whatever its shape. -/
def readEmployees (st : FsState) : Json :=
  match st.file with
  | none => Json.arr []
  | some FileData.malformed => Json.arr []
  | some (FileData.wellFormed doc) => doc

/-- How the underlying platform write ends.  `fs.writeFile` opens the file
with the truncating `w` flag and then writes, so it is not atomic: besides
full success there are two failure shapes — a failure before the file is
opened (permission denied, bad path), which leaves the previous content
intact, and a failure after the truncating open (disk full mid-write),
which leaves whatever truncated or incompletely written content reached
the disk. -/
inductive WriteOutcome where
  | success : WriteOutcome
  | openFailed : WriteOutcome
  | truncated (left : FileData) : WriteOutcome

/-- The promise returned by `fs.writeFile`: resolves with the fully
replaced file exactly on success, rejects on either failure shape. -/
def fsWriteFile (outcome : WriteOutcome) (content : FileData) (_st : FsState) :
    Except Unit FsState :=
  match outcome with
  | WriteOutcome.success => Except.ok { file := some content }
  | WriteOutcome.openFailed => Except.error ()
  | WriteOutcome.truncated _ => Except.error ()

/-- The file content `fs.writeFile` leaves on disk under each outcome:
the new content on success, the previous content when the open itself
failed, and the leftover truncated content when the write failed midway. -/
def fsWriteFileAftermath (outcome : WriteOutcome) (content : FileData) (st : FsState) :
    FsState :=
  match outcome with
  | WriteOutcome.success => { file := some content }
  | WriteOutcome.openFailed => st
  | WriteOutcome.truncated left => { file := some left }

/-- `JSON.stringify(employees, null, 2)`: stringify always yields text that
`JSON.parse` maps back to an equal document, so the fully written file
content is modelled by the document itself. -/
def jsonStringify (employees : List Json) : FileData :=
  FileData.wellFormed (Json.arr employees)

/-- `writeEmployees` from `modules/fileHandler.js`: a single uncaught
`fs.writeFile` of the stringified array; no check of the data, no recovery
of its own. -/
def writeEmployees (outcome : WriteOutcome) (st : FsState) (employees : List Json) :
    Except Unit FsState :=
  fsWriteFile outcome (jsonStringify employees) st

/-- The file state left behind after `writeEmployees`, failures included. -/
def writeObserved (outcome : WriteOutcome) (st : FsState) (employees : List Json) : FsState :=
  fsWriteFileAftermath outcome (jsonStringify employees) st

/-- The replacement object built by the `POST /edit/:id` handler
(`server.js` lines 471-481): governed fields from the validated input, the
four named pass-through fields from the existing record through
`|| default`, and nothing else. -/
def updatedEmployee (existingEmployee : EmployeeRecord) (employeeId : ℚ)
    (name department : String) (salary : ℚ) : EmployeeRecord :=
  { id := employeeId,
    name := jsTrim name,
    department := jsTrim department,
    basicSalary := salary,
    extra := [("profileImage", jsOrDefault (jsGet existingEmployee.extra "profileImage") (Json.str "")),
      ("gender", jsOrDefault (jsGet existingEmployee.extra "gender") (Json.str "Male")),
      ("startDate", jsOrDefault (jsGet existingEmployee.extra "startDate") (Json.str "")),
      ("notes", jsOrDefault (jsGet existingEmployee.extra "notes") (Json.str ""))] }

/-- `employees.findIndex(e => e.id === employeeId)` followed by in-place
replacement, as the edit handler does after validation passes: the first
record whose `id` matches is replaced by `updatedEmployee`; `none` when no
record matches (the handler then redirects with an error and writes
nothing). -/
def updateById (employeeId : ℚ) (name department : String) (salary : ℚ) :
    List EmployeeRecord → Option (List EmployeeRecord)
  | [] => none
  | e :: rest =>
    if e.id = employeeId then
      some (updatedEmployee e employeeId name department salary :: rest)
    else
      (updateById employeeId name department salary rest).map (fun l => e :: l)

/-- Decoding inverts encoding: the store loses nothing a record carries. -/
theorem employeeOfJson_toJson (e : EmployeeRecord) : employeeOfJson e.toJson = some e := rfl

/-- C1: for every positive basic salary, `calculateTax` returns exactly
`basicSalary * 0.12` (hence within the 1e-9 relative tolerance);
`calculateNetSalary` returns exactly the difference; and composing them,
net salary plus tax gives back the basic salary. -/
theorem C1_payroll_calculations (basicSalary : ℚ) (h : 0 < basicSalary) :
    (calculateTax basicSalary = basicSalary * (12 / 100)
      ∧ |calculateTax basicSalary - basicSalary * (12 / 100)|
          ≤ 1 / 10 ^ 9 * |basicSalary * (12 / 100)|)
    ∧ (∀ b t : ℚ, calculateNetSalary b t = b - t)
    ∧ calculateNetSalary basicSalary (calculateTax basicSalary) + calculateTax basicSalary
        = basicSalary := by
  refine ⟨⟨rfl, ?_⟩, fun b t => rfl, ?_⟩
  · simp only [calculateTax, sub_self, abs_zero]
    positivity
  · simp only [calculateNetSalary, calculateTax]
    ring

/-- C1 witness at the spec's example scenario: salary 5000 gives tax 600
and net salary 4400, which sum back to 5000. -/
theorem C1_payroll_calculations_witness :
    calculateTax 5000 = 600
      ∧ calculateNetSalary 5000 (calculateTax 5000) + calculateTax 5000 = 5000 := by
  have h := C1_payroll_calculations 5000 (by norm_num)
  refine ⟨?_, h.2.2⟩
  rw [h.1.1]
  norm_num

/-- C4: `readEmployees` fails open to the empty array — an absent backing
file (ENOENT) and content that does not parse as JSON both yield `[]`,
and neither case raises an error to the caller. -/
theorem C4_read_fail_open :
    readEmployees ⟨none⟩ = Json.arr []
      ∧ readEmployees ⟨some FileData.malformed⟩ = Json.arr [] :=
  ⟨rfl, rfl⟩

/-- C5 counterexample: a backing file holding the valid JSON document `5`
(not an array) makes `readEmployees` return the number 5, a non-collection
value, not the empty sequence the claim promises. -/
theorem C5_counterexample :
    readEmployees ⟨some (FileData.wellFormed (Json.num 5))⟩ = Json.num 5
      ∧ readEmployees ⟨some (FileData.wellFormed (Json.num 5))⟩ ≠ Json.arr [] :=
  ⟨rfl, fun h => nomatch h⟩

/-- C5 amended: content that parses as JSON is returned to the caller
verbatim, whatever its shape; only a missing file or unparseable content
yields the empty sequence. -/
theorem C5_amended_read_returns_parsed (doc : Json) :
    readEmployees ⟨some (FileData.wellFormed doc)⟩ = doc := rfl

/-- C8 counterexample: a write of `[2]` over a file holding `[1]` that
fails after the truncating open leaves unparseable leftover content, a
state that is neither the previous full content nor the new full content
— and a subsequent read returns `[]`, losing both documents.  (The error
itself is surfaced, as the claim also says.) -/
theorem C8_counterexample :
    writeEmployees (WriteOutcome.truncated FileData.malformed)
        ⟨some (FileData.wellFormed (Json.arr [Json.num 1]))⟩ [Json.num 2]
      = Except.error ()
    ∧ writeObserved (WriteOutcome.truncated FileData.malformed)
        ⟨some (FileData.wellFormed (Json.arr [Json.num 1]))⟩ [Json.num 2]
      = ⟨some FileData.malformed⟩
    ∧ (⟨some FileData.malformed⟩ : FsState)
        ≠ ⟨some (FileData.wellFormed (Json.arr [Json.num 1]))⟩
    ∧ (⟨some FileData.malformed⟩ : FsState)
        ≠ ⟨some (FileData.wellFormed (Json.arr [Json.num 2]))⟩
    ∧ readEmployees ⟨some FileData.malformed⟩ = Json.arr []
    ∧ Json.arr ([] : List Json) ≠ Json.arr [Json.num 1]
    ∧ Json.arr ([] : List Json) ≠ Json.arr [Json.num 2] := by
  refine ⟨rfl, rfl, ?_, ?_, rfl, by simp, by simp⟩
  · intro h
    injection h with h2
    injection h2 with h3
    exact FileData.noConfusion h3
  · intro h
    injection h with h2
    injection h2 with h3
    exact FileData.noConfusion h3

/-- C8 amended: `writeEmployees` is the bare `fs.writeFile` of the
stringified array — it raises to its caller exactly when the underlying
write fails and adds no recovery; on success the file holds exactly the
new full content, and a failure before the open leaves the previous
content; but a failure after the truncating open leaves whatever content
the interrupted write produced, so the old-or-new-content guarantee does
not hold on the failure path. -/
theorem C8_amended_write_errors (st : FsState) (employees : List Json) :
    writeEmployees WriteOutcome.success st employees
        = Except.ok ⟨some (FileData.wellFormed (Json.arr employees))⟩
      ∧ writeObserved WriteOutcome.success st employees
          = ⟨some (FileData.wellFormed (Json.arr employees))⟩
      ∧ (∀ outcome, (∃ st2, writeEmployees outcome st employees = Except.ok st2)
          ↔ outcome = WriteOutcome.success)
      ∧ writeEmployees WriteOutcome.openFailed st employees = Except.error ()
      ∧ writeObserved WriteOutcome.openFailed st employees = st
      ∧ (∀ left, writeEmployees (WriteOutcome.truncated left) st employees = Except.error ())
      ∧ (∀ left, writeObserved (WriteOutcome.truncated left) st employees = ⟨some left⟩)
      ∧ (∀ outcome, writeEmployees outcome st employees
          = fsWriteFile outcome (jsonStringify employees) st) := by
  refine ⟨rfl, rfl, ?_, rfl, rfl, fun left => rfl, fun left => rfl, fun outcome => rfl⟩
  intro outcome
  cases outcome with
  | success => exact ⟨fun _ => rfl, fun _ => ⟨_, rfl⟩⟩
  | openFailed =>
    constructor
    · rintro ⟨st2, hst2⟩
      exact absurd hst2 (fun h => nomatch h)
    · intro h
      exact absurd h (fun h2 => nomatch h2)
  | truncated left =>
    constructor
    · rintro ⟨st2, hst2⟩
      exact absurd hst2 (fun h => nomatch h)
    · intro h
      exact absurd h (fun h2 => nomatch h2)

/-- C10: the store validates nothing — any JSON array, including one whose
records have duplicate ids (both sample records carry id 1), non-positive
salaries, and blank names or departments, is persisted verbatim and read
back unchanged; well-formedness lives only in validating callers. -/
theorem C10_store_no_validation :
    (∀ (employees : List Json) (st : FsState),
      writeEmployees WriteOutcome.success st employees
          = Except.ok ⟨some (FileData.wellFormed (Json.arr employees))⟩
        ∧ readEmployees ⟨some (FileData.wellFormed (Json.arr employees))⟩
            = Json.arr employees)
    ∧ ¬ (⟨1, "", "", -5, []⟩ : EmployeeRecord).WellFormed
    ∧ ¬ (⟨1, " ", "Sales", 0, []⟩ : EmployeeRecord).WellFormed
    ∧ (writeEmployees WriteOutcome.success ⟨none⟩
          [EmployeeRecord.toJson ⟨1, "", "", -5, []⟩, EmployeeRecord.toJson ⟨1, " ", "Sales", 0, []⟩]
        = Except.ok ⟨some (FileData.wellFormed (Json.arr
            [EmployeeRecord.toJson ⟨1, "", "", -5, []⟩, EmployeeRecord.toJson ⟨1, " ", "Sales", 0, []⟩]))⟩)
    ∧ readEmployees ⟨some (FileData.wellFormed (Json.arr
          [EmployeeRecord.toJson ⟨1, "", "", -5, []⟩, EmployeeRecord.toJson ⟨1, " ", "Sales", 0, []⟩]))⟩
        = Json.arr
            [EmployeeRecord.toJson ⟨1, "", "", -5, []⟩, EmployeeRecord.toJson ⟨1, " ", "Sales", 0, []⟩] := by
  refine ⟨fun employees st => ⟨rfl, rfl⟩, ?_, ?_, rfl, rfl⟩
  · intro h
    exact h.1 rfl
  · intro h
    exact h.2.2.1.ne rfl

/-- C7: `enrichEmployeeWithPayroll` returns a fresh derived value carrying
every input field unchanged (id, name, department, basicSalary and all
pass-through fields) plus exactly `tax = basicSalary * 0.12` and
`netSalary = basicSalary - tax`; the input record is not mutated. -/
theorem C7_enrich_adds_only_payroll (employee : EmployeeRecord) (h : employee.wfKeys) :
    (enrichEmployeeWithPayroll employee).id = employee.id
      ∧ (enrichEmployeeWithPayroll employee).name = employee.name
      ∧ (enrichEmployeeWithPayroll employee).department = employee.department
      ∧ (enrichEmployeeWithPayroll employee).basicSalary = employee.basicSalary
      ∧ (enrichEmployeeWithPayroll employee).extra = employee.extra
      ∧ (enrichEmployeeWithPayroll employee).tax = calculateTax employee.basicSalary
      ∧ (enrichEmployeeWithPayroll employee).netSalary
          = employee.basicSalary - calculateTax employee.basicSalary :=
  ⟨rfl, rfl, rfl, rfl, rfl, rfl, rfl⟩

/-- C7 witness: enriching a concrete record with pass-through fields. -/
theorem C7_enrich_adds_only_payroll_witness :
    (enrichEmployeeWithPayroll ⟨1, "A", "B", 5000, [("notes", Json.str "n")]⟩).id
        = (⟨1, "A", "B", 5000, [("notes", Json.str "n")]⟩ : EmployeeRecord).id
      ∧ (enrichEmployeeWithPayroll ⟨1, "A", "B", 5000, [("notes", Json.str "n")]⟩).extra
          = (⟨1, "A", "B", 5000, [("notes", Json.str "n")]⟩ : EmployeeRecord).extra
      ∧ (enrichEmployeeWithPayroll ⟨1, "A", "B", 5000, [("notes", Json.str "n")]⟩).tax
          = calculateTax 5000 :=
  ⟨(C7_enrich_adds_only_payroll ⟨1, "A", "B", 5000, [("notes", Json.str "n")]⟩ (by decide)).1,
   (C7_enrich_adds_only_payroll ⟨1, "A", "B", 5000, [("notes", Json.str "n")]⟩ (by decide)).2.2.2.2.1,
   (C7_enrich_adds_only_payroll ⟨1, "A", "B", 5000, [("notes", Json.str "n")]⟩ (by decide)).2.2.2.2.2.1⟩

/-- C2: persisting any collection of well-formed records and loading again
returns a document deep-equal to what was written, order preserved, and
each element decodes back to the exact original record, pass-through
fields included. -/
theorem C2_persistence_round_trip (xs : List EmployeeRecord) (st st2 : FsState)
    (hwf : ∀ e ∈ xs, e.WellFormed)
    (hw : writeEmployees WriteOutcome.success st (xs.map EmployeeRecord.toJson) = Except.ok st2) :
    readEmployees st2 = Json.arr (xs.map EmployeeRecord.toJson)
      ∧ (xs.map EmployeeRecord.toJson).map employeeOfJson = xs.map some := by
  have hst : Except.ok (ε := Unit)
      (⟨some (FileData.wellFormed (Json.arr (xs.map EmployeeRecord.toJson)))⟩ : FsState)
      = Except.ok st2 := hw
  cases hst
  refine ⟨rfl, ?_⟩
  rw [List.map_map]
  exact List.map_congr_left fun e _ => employeeOfJson_toJson e

/-- C2 witness: a concrete two-record collection with pass-through fields
(including an unknown `badge` field and a falsy `notes` value) written to
an initially missing store and read back unchanged. -/
theorem C2_persistence_round_trip_witness :
    readEmployees ⟨some (FileData.wellFormed (Json.arr
        (([⟨1, "John Doe", "Engineering", 5000,
             [("profileImage", Json.str "/uploads/x.png"), ("gender", Json.str "Female"),
              ("startDate", Json.str "5 Jan 2024"), ("notes", Json.str ""),
              ("badge", Json.num 7)]⟩,
           ⟨2, "Jane", "Marketing", 4500, []⟩] : List EmployeeRecord).map
          EmployeeRecord.toJson)))⟩
      = Json.arr
          (([⟨1, "John Doe", "Engineering", 5000,
               [("profileImage", Json.str "/uploads/x.png"), ("gender", Json.str "Female"),
                ("startDate", Json.str "5 Jan 2024"), ("notes", Json.str ""),
                ("badge", Json.num 7)]⟩,
             ⟨2, "Jane", "Marketing", 4500, []⟩] : List EmployeeRecord).map
            EmployeeRecord.toJson)
    ∧ (([⟨1, "John Doe", "Engineering", 5000,
           [("profileImage", Json.str "/uploads/x.png"), ("gender", Json.str "Female"),
            ("startDate", Json.str "5 Jan 2024"), ("notes", Json.str ""),
            ("badge", Json.num 7)]⟩,
         ⟨2, "Jane", "Marketing", 4500, []⟩] : List EmployeeRecord).map
          EmployeeRecord.toJson).map employeeOfJson
        = ([⟨1, "John Doe", "Engineering", 5000,
              [("profileImage", Json.str "/uploads/x.png"), ("gender", Json.str "Female"),
               ("startDate", Json.str "5 Jan 2024"), ("notes", Json.str ""),
               ("badge", Json.num 7)]⟩,
            ⟨2, "Jane", "Marketing", 4500, []⟩] : List EmployeeRecord).map some :=
  C2_persistence_round_trip
    [⟨1, "John Doe", "Engineering", 5000,
       [("profileImage", Json.str "/uploads/x.png"), ("gender", Json.str "Female"),
        ("startDate", Json.str "5 Jan 2024"), ("notes", Json.str ""),
        ("badge", Json.num 7)]⟩,
     ⟨2, "Jane", "Marketing", 4500, []⟩]
    ⟨none⟩ _ (by decide) rfl

/-- C6 counterexample: a stored record with a falsy `gender` (`""`) and an
unknown pass-through field `favoriteColor` goes through a validated edit;
the resulting record has `gender` rewritten to `"Male"` and no
`favoriteColor` at all, so the pass-through fields are not left unchanged. -/
theorem C6_counterexample :
    (validateEmployeeInput (some "B") (some "Sales") (SalaryInput.num 6000)).valid = true
      ∧ updateById 1 "B" "Sales" 6000
          [⟨1, "A", "Engineering", 5000,
             [("gender", Json.str ""), ("favoriteColor", Json.str "blue")]⟩]
          = some [⟨1, "B", "Sales", 6000,
              [("profileImage", Json.str ""), ("gender", Json.str "Male"),
               ("startDate", Json.str ""), ("notes", Json.str "")]⟩]
      ∧ Json.str "Male" ≠ Json.str ""
      ∧ jsGet [("gender", Json.str ""), ("favoriteColor", Json.str "blue")] "gender"
          = some (Json.str "")
      ∧ jsGet [("profileImage", Json.str ""), ("gender", Json.str "Male"),
               ("startDate", Json.str ""), ("notes", Json.str "")] "gender"
          = some (Json.str "Male")
      ∧ jsGet [("gender", Json.str ""), ("favoriteColor", Json.str "blue")] "favoriteColor"
          = some (Json.str "blue")
      ∧ jsGet [("profileImage", Json.str ""), ("gender", Json.str "Male"),
               ("startDate", Json.str ""), ("notes", Json.str "")] "favoriteColor"
          = none :=
  ⟨by decide, rfl, by simp, rfl, rfl, rfl, rfl⟩

/-- C6 amended: a validated edit preserves the record's `id`; each of
`profileImage`, `gender`, `startDate`, `notes` is carried over exactly when
present with a JS-truthy value, and the updated record's pass-through keys
are exactly those four (any other field is dropped; an absent or falsy one
is replaced by the default, `""` or `"Male"`). -/
theorem C6_amended_frame (existingEmployee : EmployeeRecord) (employeeId : ℚ)
    (name department : String) (salary : ℚ) (sal : SalaryInput)
    (hv : (validateEmployeeInput (some name) (some department) sal).valid = true)
    (hs : (jsParseFloat sal).toRat = some salary)
    (hid : existingEmployee.id = employeeId) :
    (updatedEmployee existingEmployee employeeId name department salary).id
        = existingEmployee.id
      ∧ (updatedEmployee existingEmployee employeeId name department salary).extra.map Prod.fst
          = ["profileImage", "gender", "startDate", "notes"]
      ∧ (∀ v, jsGet existingEmployee.extra "profileImage" = some v → jsTruthy v = true →
          jsGet (updatedEmployee existingEmployee employeeId name department salary).extra
              "profileImage" = some v)
      ∧ (∀ v, jsGet existingEmployee.extra "gender" = some v → jsTruthy v = true →
          jsGet (updatedEmployee existingEmployee employeeId name department salary).extra
              "gender" = some v)
      ∧ (∀ v, jsGet existingEmployee.extra "startDate" = some v → jsTruthy v = true →
          jsGet (updatedEmployee existingEmployee employeeId name department salary).extra
              "startDate" = some v)
      ∧ (∀ v, jsGet existingEmployee.extra "notes" = some v → jsTruthy v = true →
          jsGet (updatedEmployee existingEmployee employeeId name department salary).extra
              "notes" = some v)
      ∧ (updatedEmployee existingEmployee employeeId name department salary).name = jsTrim name
      ∧ (updatedEmployee existingEmployee employeeId name department salary).department
          = jsTrim department
      ∧ (updatedEmployee existingEmployee employeeId name department salary).basicSalary
          = salary := by
  subst hid
  refine ⟨rfl, rfl, ?_, ?_, ?_, ?_, rfl, rfl, rfl⟩
  · intro v hget htr
    have hu : jsGet (updatedEmployee existingEmployee existingEmployee.id name department
        salary).extra "profileImage"
        = some (jsOrDefault (jsGet existingEmployee.extra "profileImage") (Json.str "")) := rfl
    rw [hu, hget]
    simp [jsOrDefault, htr]
  · intro v hget htr
    have hu : jsGet (updatedEmployee existingEmployee existingEmployee.id name department
        salary).extra "gender"
        = some (jsOrDefault (jsGet existingEmployee.extra "gender") (Json.str "Male")) := rfl
    rw [hu, hget]
    simp [jsOrDefault, htr]
  · intro v hget htr
    have hu : jsGet (updatedEmployee existingEmployee existingEmployee.id name department
        salary).extra "startDate"
        = some (jsOrDefault (jsGet existingEmployee.extra "startDate") (Json.str "")) := rfl
    rw [hu, hget]
    simp [jsOrDefault, htr]
  · intro v hget htr
    have hu : jsGet (updatedEmployee existingEmployee existingEmployee.id name department
        salary).extra "notes"
        = some (jsOrDefault (jsGet existingEmployee.extra "notes") (Json.str "")) := rfl
    rw [hu, hget]
    simp [jsOrDefault, htr]

/-- C6 amended witness: a validated edit of a concrete record whose four
pass-through fields are all truthy keeps its id and its gender value. -/
theorem C6_amended_frame_witness :
    (updatedEmployee
        ⟨7, "Old", "HR", 1000,
          [("profileImage", Json.str "/uploads/p.png"), ("gender", Json.str "Female"),
           ("startDate", Json.str "1 Feb 2020"), ("notes", Json.str "senior")]⟩
        7 "New" "IT" 2000).id
      = (⟨7, "Old", "HR", 1000,
           [("profileImage", Json.str "/uploads/p.png"), ("gender", Json.str "Female"),
            ("startDate", Json.str "1 Feb 2020"), ("notes", Json.str "senior")]⟩
          : EmployeeRecord).id
    ∧ jsGet (updatedEmployee
        ⟨7, "Old", "HR", 1000,
          [("profileImage", Json.str "/uploads/p.png"), ("gender", Json.str "Female"),
           ("startDate", Json.str "1 Feb 2020"), ("notes", Json.str "senior")]⟩
        7 "New" "IT" 2000).extra "gender" = some (Json.str "Female") := by
  have hs : (jsParseFloat (SalaryInput.str "2000")).toRat = some 2000 := by
    have hp : jsParseFloat (SalaryInput.str "2000") = JsNum.fin 2000 1 := by decide
    rw [hp]
    simp [JsNum.toRat]
  have h := C6_amended_frame
    ⟨7, "Old", "HR", 1000,
      [("profileImage", Json.str "/uploads/p.png"), ("gender", Json.str "Female"),
       ("startDate", Json.str "1 Feb 2020"), ("notes", Json.str "senior")]⟩
    7 "New" "IT" 2000 (SalaryInput.str "2000") (by decide) hs rfl
  exact ⟨h.1, h.2.2.2.1 (Json.str "Female") rfl (by decide)⟩

/-- C3: `validateEmployeeInput` runs all three field checks (each error's
presence depends only on its own field), `valid` holds iff `errors` is
empty, every error is one of the three fixed messages with at most one
occurrence each (so 0-3 errors), and the all-bad input gives all 3. -/
theorem C3_validate_collects_all_errors :
    (∀ (name department : Option String) (basicSalary : SalaryInput),
      ((validateEmployeeInput name department basicSalary).valid = true
        ↔ (validateEmployeeInput name department basicSalary).errors = [])
      ∧ (("Name is required and cannot be empty"
            ∈ (validateEmployeeInput name department basicSalary).errors)
          ↔ isBlankField name = true)
      ∧ (("Department is required and cannot be empty"
            ∈ (validateEmployeeInput name department basicSalary).errors)
          ↔ isBlankField department = true)
      ∧ (("Basic Salary must be a positive number"
            ∈ (validateEmployeeInput name department basicSalary).errors)
          ↔ (jsIsNaN (jsParseFloat basicSalary) || jsLeZero (jsParseFloat basicSalary)) = true)
      ∧ (validateEmployeeInput name department basicSalary).errors.length ≤ 3
      ∧ (∀ msg ∈ (validateEmployeeInput name department basicSalary).errors,
          msg ∈ ["Name is required and cannot be empty",
                 "Department is required and cannot be empty",
                 "Basic Salary must be a positive number"])
      ∧ List.count "Name is required and cannot be empty"
          (validateEmployeeInput name department basicSalary).errors ≤ 1
      ∧ List.count "Department is required and cannot be empty"
          (validateEmployeeInput name department basicSalary).errors ≤ 1
      ∧ List.count "Basic Salary must be a positive number"
          (validateEmployeeInput name department basicSalary).errors ≤ 1)
    ∧ validateEmployeeInput (some "") (some "") (SalaryInput.num (-5))
        = ⟨false, ["Name is required and cannot be empty",
                   "Department is required and cannot be empty",
                   "Basic Salary must be a positive number"]⟩ := by
  refine ⟨?_, by decide⟩
  intro name department basicSalary
  cases hn : isBlankField name <;>
    cases hd : isBlankField department <;>
      cases hs : (jsIsNaN (jsParseFloat basicSalary) || jsLeZero (jsParseFloat basicSalary)) <;>
        simp [validateEmployeeInput, hn, hd, hs, List.count_cons]

/-- A decimal digit is not whitespace. -/
theorem isDigit_not_whitespace (c : Char) (h : c.isDigit = true) : c.isWhitespace = false := by
  rcases hw : c.isWhitespace with _ | _
  · rfl
  · exfalso
    have hc : ((c = ' ' ∨ c = '\t') ∨ c = '\x0d') ∨ c = '\n' := by
      simpa [Char.isWhitespace] using hw
    rcases hc with ((rfl | rfl) | rfl) | rfl <;> exact absurd h (by decide)

/-- A decimal digit is none of the parser's special characters. -/
theorem isDigit_ne_special (c : Char) (h : c.isDigit = true) :
    c ≠ '+' ∧ c ≠ '-' ∧ c ≠ 'I' ∧ c ≠ '.' ∧ c ≠ 'e' ∧ c ≠ 'E' := by
  refine ⟨fun hc => ?_, fun hc => ?_, fun hc => ?_, fun hc => ?_, fun hc => ?_, fun hc => ?_⟩ <;>
    (subst hc; exact absurd h (by decide))

/-- `parseSign` consumes nothing when the head is not a sign character. -/
theorem parseSign_no_sign (c : Char) (l : List Char) (h1 : c ≠ '+') (h2 : c ≠ '-') :
    parseSign (c :: l) = (false, c :: l) := by
  unfold parseSign
  split
  · rename_i heq
    injection heq with h _
    exact absurd h h1
  · rename_i heq
    injection heq with h _
    exact absurd h h2
  · rfl

/-- `takeDigits` consumes exactly a leading all-digit run. -/
theorem takeDigits_append (ds rest : List Char) (h1 : ∀ x ∈ ds, x.isDigit = true)
    (h2 : ∀ r ∈ rest.take 1, r.isDigit = false) :
    takeDigits (ds ++ rest) = (ds, rest) := by
  induction ds with
  | nil =>
    simp only [List.nil_append]
    cases rest with
    | nil => rfl
    | cons r rs =>
      have hr : r.isDigit = false := h2 r (by simp)
      simp [takeDigits, hr]
  | cons c cs ih =>
    have hc : c.isDigit = true := h1 c (by simp)
    have hrec := ih (fun x hx => h1 x (by simp [hx]))
    simp [takeDigits, hc, hrec]

/-- The significand of a digit run followed by a non-continuing character
is the digit run itself over denominator 1. -/
theorem parseSignificand_digit_prefix (c : Char) (cs rest : List Char)
    (h1 : ∀ x ∈ c :: cs, x.isDigit = true)
    (h2 : ∀ r ∈ rest.take 1, r.isDigit = false ∧ r ≠ '.' ∧ r ≠ 'e' ∧ r ≠ 'E') :
    parseSignificand (c :: (cs ++ rest)) = some ((digitsToNat (c :: cs) : ℤ), 1, rest) := by
  have htd : takeDigits (c :: cs ++ rest) = (c :: cs, rest) :=
    takeDigits_append (c :: cs) rest h1 (fun r hr => (h2 r hr).1)
  simp only [parseSignificand, List.cons_append] at *
  rw [htd]
  cases rest with
  | nil => simp
  | cons r rs =>
    have hr := h2 r (by simp)
    split
    · rename_i heq
      exact absurd (List.head_eq_of_cons_eq heq) hr.2.1
    · simp

/-- The exponent parser consumes nothing at a non-exponent character. -/
theorem parseExponent_stop (rest : List Char)
    (h2 : ∀ r ∈ rest.take 1, r.isDigit = false ∧ r ≠ '.' ∧ r ≠ 'e' ∧ r ≠ 'E') :
    parseExponent rest = (0, rest) := by
  cases rest with
  | nil => rfl
  | cons r rs =>
    have hr := h2 r (by simp)
    simp only [parseExponent]
    rw [if_neg]
    rintro (rfl | rfl)
    · exact hr.2.2.1 rfl
    · exact hr.2.2.2 rfl

/-- Longest-prefix behaviour of `parseFloat`: a leading digit run followed
by characters that cannot continue a number parses to the value of the
digit run alone, the trailing characters being ignored. -/
theorem jsParseFloatString_digit_prefix (ds rest : List Char) (hne : ds ≠ [])
    (h1 : ∀ x ∈ ds, x.isDigit = true)
    (h2 : ∀ r ∈ rest.take 1, r.isDigit = false ∧ r ≠ '.' ∧ r ≠ 'e' ∧ r ≠ 'E') :
    jsParseFloatString (String.mk (ds ++ rest)) = JsNum.fin (digitsToNat ds) 1 := by
  obtain ⟨c, cs, rfl⟩ : ∃ c cs, ds = c :: cs := by
    cases ds with
    | nil => exact absurd rfl hne
    | cons c cs => exact ⟨c, cs, rfl⟩
  have hc : c.isDigit = true := h1 c (by simp)
  have hws : c.isWhitespace = false := isDigit_not_whitespace c hc
  have hsp := isDigit_ne_special c hc
  have hdw : List.dropWhile Char.isWhitespace (c :: (cs ++ rest)) = c :: (cs ++ rest) := by
    rw [List.dropWhile_cons]
    simp [hws]
  have hpu : parseUnsigned (c :: (cs ++ rest)) = some ((digitsToNat (c :: cs) : ℤ), 1) := by
    simp [parseUnsigned, parseSignificand_digit_prefix c cs rest h1 h2,
      parseExponent_stop rest h2, applyExponent]
  have h8 : List.take 8 (c :: (cs ++ rest)) = c :: List.take 7 (cs ++ rest) := rfl
  have hneg : ¬ List.take 8 (c :: (cs ++ rest)) = "Infinity".data := by
    rw [h8]
    intro htake
    exact hsp.2.2.1 (List.head_eq_of_cons_eq htake)
  simp only [jsParseFloatString, List.cons_append, hdw,
    parseSign_no_sign c (cs ++ rest) hsp.1 hsp.2.1]
  rw [if_neg hneg, hpu]
  simp

/-- C9: the salary check accepts inputs that are not numerals: any string
made of a positive digit run followed by characters that cannot continue a
number (such as "5000abc") parses to the digit run's value, so with
non-blank name and department the whole input validates. -/
theorem C9_trailing_garbage_accepted :
    (jsParseFloatString "5000abc" = JsNum.fin 5000 1
      ∧ validateEmployeeInput (some "A") (some "B") (SalaryInput.str "5000abc")
          = ⟨true, []⟩)
    ∧ (∀ (name department : Option String) (ds rest : List Char),
        ds ≠ [] → (∀ x ∈ ds, x.isDigit = true) →
        (∀ r ∈ rest.take 1, r.isDigit = false ∧ r ≠ '.' ∧ r ≠ 'e' ∧ r ≠ 'E') →
        0 < digitsToNat ds →
        isBlankField name = false → isBlankField department = false →
        validateEmployeeInput name department (SalaryInput.str (String.mk (ds ++ rest)))
          = ⟨true, []⟩) := by
  refine ⟨⟨by decide, by decide⟩, ?_⟩
  intro name department ds rest hne h1 h2 hpos hn hd
  have hp : jsParseFloat (SalaryInput.str (String.mk (ds ++ rest)))
      = JsNum.fin (digitsToNat ds) 1 :=
    jsParseFloatString_digit_prefix ds rest hne h1 h2
  have hnle : ¬ ((digitsToNat ds : ℤ) ≤ 0) := by omega
  simp [validateEmployeeInput, hn, hd, hp, jsIsNaN, jsLeZero, hnle]

/-- C9 witness: the string "7xy" (digit run "7", trailing junk "xy") is
accepted together with non-blank name and department. -/
theorem C9_trailing_garbage_accepted_witness :
    validateEmployeeInput (some "X") (some "Y")
        (SalaryInput.str (String.mk (['7'] ++ ['x', 'y'])))
      = ⟨true, []⟩ :=
  C9_trailing_garbage_accepted.2 (some "X") (some "Y") ['7'] ['x', 'y']
    (by decide) (by decide) (by decide) (by decide) (by decide) (by decide)

/-- C3 witness: with a blank name, good department, good salary, the one
error produced is among the three fixed messages. -/
theorem C3_validate_collects_all_errors_witness :
    "Name is required and cannot be empty"
      ∈ ["Name is required and cannot be empty",
         "Department is required and cannot be empty",
         "Basic Salary must be a positive number"] :=
  (C3_validate_collects_all_errors.1 (some "") (some "Engineering")
      (SalaryInput.num 5000)).2.2.2.2.2.1
    "Name is required and cannot be empty" (by decide)
